import Mathlib

/-!
Verification of the pythmata BPMN engine against its specification.

The definitions below shallowly embed the code under `src/backend/src/pythmata/`:
`models/process.py` (data model) and `main.py` (event handlers and lifespan).
The `ProcessInstanceManager`, `ProcessExecutor` and `StateManager` classes are
not part of the provided sources (only their tests and callers are), so their
operations are modelled from the specification where noted.
-/

namespace Pythmata

/-- Process instance status, from `models/process.py` (`ProcessStatus`):
RUNNING, COMPLETED, SUSPENDED, ERROR.  Note the enum has no CREATED member;
a not-yet-created instance is modelled as `none : Option ProcessStatus`. -/
inductive ProcessStatus
  | RUNNING
  | COMPLETED
  | SUSPENDED
  | ERROR
deriving DecidableEq, Repr

/-- A `process_instances` row, from `models/process.py` (`ProcessInstance`):
id, definition_id, status, start_time (non-null), end_time (nullable).
Timestamps are modelled as natural numbers, uuids as strings. -/
structure InstanceRow where
  id : String
  definition_id : String
  status : ProcessStatus
  start_time : Nat
  end_time : Option Nat
deriving DecidableEq, Repr

/-- A token in the state store, from spec §3: identity, instance id, current
node id, optional scope id, optional data payload, optional parent token id. -/
structure Token where
  id : String
  instance_id : String
  node_id : String
  scope_id : Option String := none
  data : Option (List (String × String)) := none
  parent_id : Option String := none
deriving DecidableEq, Repr

/-- Payload of a `process.started` event, from spec §6 and `main.py` lines
70-81: instance_id, definition_id, variables object (field `vars` here, since
`variables` is reserved in Lean), optional source, timestamp. -/
structure StartedPayload where
  instance_id : String
  definition_id : String
  vars : List (String × String)
  source : Option String
  timestamp : Nat
deriving DecidableEq, Repr

/-- The `data` dict passed to `handle_timer_triggered`; a missing key models a
dict without that entry (reading it raises KeyError). -/
structure EventData where
  instance_id : Option String
  definition_id : Option String
deriving DecidableEq, Repr

/-- The world visible to `handle_timer_triggered`: the `process_instances`
table, the list of events published so far, and fault-injection flags for the
service calls the handler performs (`event_bus.connect`, `db.connect`,
`event_bus.publish`). -/
structure TimerWorld where
  instances : List InstanceRow
  published : List StartedPayload
  busConnectFails : Bool
  dbConnectFails : Bool
  publishFails : Bool
deriving DecidableEq, Repr

/-- `session.add(instance); session.commit()` on the `process_instances`
table: the primary-key constraint makes the commit fail with IntegrityError
when a row with the same id already exists; otherwise the row is appended. -/
def insertInstanceRow (db : List InstanceRow) (row : InstanceRow) :
    Except String (List InstanceRow) :=
  if db.any (fun r => r.id == row.id) then Except.error ("IntegrityError")
  else Except.ok (db ++ [row])

/-- Source string attached by `handle_timer_triggered` to the published
`process.started` event (`main.py` line 77). -/
def srcTimer : String := "timer_event"

/-- The body of `handle_timer_triggered` (`main.py` lines 34-84), i.e. the
code inside the outer `try`: read `data["instance_id"]` and
`data["definition_id"]` (KeyError when missing), connect the event bus and the
database, insert the instance row with status RUNNING and start_time now
(IntegrityError when the row exists), then publish `process.started` with the
same ids, empty variables, source "timer_event" and the current timestamp.
Returns the updated world together with the exception, if any, escaping the
body; a commit that fails leaves the table unchanged, and a publish happens
only after a successful commit. -/
def handle_timer_triggered_try (now : Nat) (data : EventData) (w : TimerWorld) :
    TimerWorld × Option String :=
  match data.instance_id with
  | none => (w, some ("KeyError"))
  | some instance_id =>
    match data.definition_id with
    | none => (w, some ("KeyError"))
    | some definition_id =>
      if w.busConnectFails then (w, some ("ConnectError"))
      else if w.dbConnectFails then (w, some ("ConnectError"))
      else
        match insertInstanceRow w.instances
            { id := instance_id, definition_id := definition_id,
              status := ProcessStatus.RUNNING, start_time := now,
              end_time := none } with
        | Except.error e => (w, some e)
        | Except.ok instances' =>
          let w1 := { w with instances := instances' }
          if w.publishFails then (w1, some ("PublishError"))
          else
            ({ w1 with published := w1.published ++
                [{ instance_id := instance_id, definition_id := definition_id,
                   vars := [], source := some srcTimer, timestamp := now }] },
             none)

/-- `handle_timer_triggered` (`main.py` lines 24-87): the whole body is
wrapped in `try ... except Exception`, which logs the error and returns
normally, so no exception ever escapes the handler.  The second component is
the exception escaping the handler. -/
def handle_timer_triggered (now : Nat) (data : EventData) (w : TimerWorld) :
    TimerWorld × Option String :=
  match handle_timer_triggered_try now data w with
  | (w', some _) => (w', none)
  | (w', none) => (w', none)

/-- Modelled from the spec: `ProcessExecutor.create_initial_token` is not
under src/ (only its callers and tests are).  Spec §4.1: "rejects if a token
already exists for that (instance, node)"; otherwise it creates one token at
the node for the instance. -/
def create_initial_token (instance_id node_id fresh_id : String)
    (tokens : List Token) : Except String (List Token) :=
  if tokens.any (fun t => t.instance_id == instance_id && t.node_id == node_id)
  then Except.error ("TokenExistsError")
  else Except.ok (tokens ++
    [{ id := fresh_id, instance_id := instance_id, node_id := node_id }])

/-- The token-creation step of `handle_process_started` (`main.py` lines
216-236): read the existing token positions; if the result is not None and
non-empty, skip token creation and use the existing tokens unchanged;
otherwise call `create_initial_token` at the start event. -/
def handle_process_started_token_step (instance_id start_event_id fresh_id : String)
    (existing : Option (List Token)) : Except String (List Token) :=
  match existing with
  | some tokens =>
    if tokens.length > 0 then Except.ok tokens
    else create_initial_token instance_id start_event_id fresh_id tokens
  | none => create_initial_token instance_id start_event_id fresh_id []

/-- The services disconnected during shutdown, in the order `lifespan`
(`main.py` lines 352-386) attempts them. -/
inductive Service
  | timerScheduler
  | database
  | eventBus
  | stateManager
deriving DecidableEq, Repr

/-- One `try: ... disconnect ... except Exception as e: errors.append(e)`
block of the shutdown phase: the service is attempted and, if its disconnect
raises, the error is appended to the collected list. -/
def shutdownTry (acc : List Service × List String) (svc : Service)
    (res : Option String) : List Service × List String :=
  match res with
  | none => (acc.1 ++ [svc], acc.2)
  | some e => (acc.1 ++ [svc], acc.2 ++ [e])

/-- Result of the shutdown phase: which services were asked to disconnect,
the collected errors, and the exception raised at the end, if any. -/
structure ShutdownResult where
  attempted : List Service
  collected : List String
  raised : Option String
deriving DecidableEq, Repr

/-- The shutdown phase of `lifespan` (`main.py` lines 352-386): four
sequential try/except blocks stop the timer scheduler and disconnect the
database, the event bus and the state manager, appending every failure to
`errors`; after all four attempts, `if errors: raise errors[0]`.  Each
argument is the outcome of the corresponding disconnect call (`some e` means
it raised `e`). -/
def lifespan_shutdown (rTimer rDb rBus rState : Option String) : ShutdownResult :=
  let a1 := shutdownTry ([], []) Service.timerScheduler rTimer
  let a2 := shutdownTry a1 Service.database rDb
  let a3 := shutdownTry a2 Service.eventBus rBus
  let a4 := shutdownTry a3 Service.stateManager rState
  { attempted := a4.1
    collected := a4.2
    raised := match a4.2 with | [] => none | e :: _ => some e }

/-- A variable value payload as carried on the JSON wire: an integer, a
number literal (floats are kept as their serialized literal, never computed
with), a boolean, a string, or an embedded json text.  Spec §9: variables are
tagged values. -/
inductive RawValue
  | rint (i : Int)
  | rnum (lit : String)
  | rbool (b : Bool)
  | rstr (s : String)
  | rjson (j : String)
deriving DecidableEq, Repr

/-- A tagged variable as supplied to `create_instance`: a type tag string and
a value payload, e.g. `{"type": "integer", "value": 1000}`. -/
structure TypedVar where
  type : String
  value : RawValue
deriving DecidableEq, Repr

/-- The allowed variable type tags, spec §3: integer, float, boolean, string,
json, date. -/
def allowedTags : List String :=
  ["integer", "float", "boolean", "string", "json", "date"]

/-- Modelled from the spec: the value/type mismatch check of §4.2 / §7
(`InvalidVariableError` on value/type mismatch).  Each allowed tag accepts the
matching payload shape; dates travel as ISO strings, json accepts anything. -/
def tagMatches : String → RawValue → Bool
  | "integer", RawValue.rint _ => true
  | "float", RawValue.rnum _ => true
  | "float", RawValue.rint _ => true
  | "boolean", RawValue.rbool _ => true
  | "string", RawValue.rstr _ => true
  | "json", _ => true
  | "date", RawValue.rstr _ => true
  | _, _ => false

/-- A variable is valid when its tag is in the allowed set and its value
matches the tag (spec §7: `InvalidVariableError` — unknown type tag or
value/type mismatch). -/
def validVar (v : TypedVar) : Bool :=
  allowedTags.contains v.type && tagMatches v.type v.value

/-- A `variables` row, from `models/process.py` (`Variable`): owning
instance, name, optional scope id, monotonically increasing version, type
tag, value payload. -/
structure VarRow where
  instance_id : String
  name : String
  scope_id : Option String
  version : Nat
  value_type : String
  value : RawValue
deriving DecidableEq, Repr

/-- The state visible to the instance manager: the known process definition
ids, the `process_instances` rows, the append-only `variables` rows, and the
tokens held by the state store. -/
structure EngineState where
  definitions : List String
  instances : List InstanceRow
  varRows : List VarRow
  tokens : List Token
deriving DecidableEq, Repr

/-- Error taxonomy of spec §7, restricted to the errors the modelled
operations raise. -/
inductive EngineError
  | invalidProcessDefinition
  | invalidVariable
  | invalidStateTransition
  | processInstance
deriving DecidableEq, Repr

/-- `SELECT * FROM process_instances WHERE id = :id` — the first row with the
given primary key. -/
def findRow : List InstanceRow → String → Option InstanceRow
  | [], _ => none
  | r :: rest, id => if r.id == id then some r else findRow rest id

/-- Status of the instance row with the given id, `none` when no row exists. -/
def statusOf (s : EngineState) (id : String) : Option ProcessStatus :=
  (findRow s.instances id).map (fun r => r.status)

/-- End time of the instance row with the given id (`none` when no row). -/
def endTimeOf (s : EngineState) (id : String) : Option (Option Nat) :=
  (findRow s.instances id).map (fun r => r.end_time)

/-- `StateManager.get_token_positions`, modelled from the spec (§4.3): the
tokens recorded for the instance. -/
def get_token_positions (s : EngineState) (id : String) : List Token :=
  s.tokens.filter (fun t => t.instance_id == id)

/-- Overwrite the status of every row with the given id, leaving every other
field and every other row unchanged. -/
def setInstanceStatus (s : EngineState) (id : String) (st : ProcessStatus) :
    EngineState :=
  { s with instances :=
      s.instances.map (fun r => if r.id == id then { r with status := st } else r) }

/-- Modelled from the spec: `ProcessInstanceManager.suspend_instance` is not
under src/ (only its tests are).  §4.2: enforce the transition matrix
(RUNNING → SUSPENDED only), persist the status; anything else raises
`InvalidStateTransitionError` and a missing row an instance-scoped error. -/
def suspend_instance (s : EngineState) (id : String) :
    Except EngineError EngineState :=
  match findRow s.instances id with
  | none => Except.error EngineError.processInstance
  | some row =>
    if row.status = ProcessStatus.RUNNING then
      Except.ok (setInstanceStatus s id ProcessStatus.SUSPENDED)
    else Except.error EngineError.invalidStateTransition

/-- Modelled from the spec: `ProcessInstanceManager.resume_instance` is not
under src/.  §4.2 matrix: SUSPENDED → RUNNING, and ERROR → RUNNING
(recovery, exercised by `test_handle_error_state`). -/
def resume_instance (s : EngineState) (id : String) :
    Except EngineError EngineState :=
  match findRow s.instances id with
  | none => Except.error EngineError.processInstance
  | some row =>
    if row.status = ProcessStatus.SUSPENDED || row.status = ProcessStatus.ERROR then
      Except.ok (setInstanceStatus s id ProcessStatus.RUNNING)
    else Except.error EngineError.invalidStateTransition

/-- Modelled from the spec: `ProcessInstanceManager.terminate_instance` is
not under src/.  §4.2: RUNNING → COMPLETED and ERROR → COMPLETED (forced
terminate); persist status, set `end_time`, and remove all tokens of the
instance. -/
def terminate_instance (now : Nat) (s : EngineState) (id : String) :
    Except EngineError EngineState :=
  match findRow s.instances id with
  | none => Except.error EngineError.processInstance
  | some row =>
    if row.status = ProcessStatus.RUNNING || row.status = ProcessStatus.ERROR then
      Except.ok { s with
        instances := s.instances.map (fun r =>
          if r.id == id then
            { r with status := ProcessStatus.COMPLETED, end_time := some now }
          else r),
        tokens := s.tokens.filter (fun t => !(t.instance_id == id)) }
    else Except.error EngineError.invalidStateTransition

/-- Modelled from the spec: `ProcessInstanceManager.set_error_state` is not
under src/.  §4.2 matrix: RUNNING → ERROR only. -/
def set_error_state (s : EngineState) (id : String) :
    Except EngineError EngineState :=
  match findRow s.instances id with
  | none => Except.error EngineError.processInstance
  | some row =>
    if row.status = ProcessStatus.RUNNING then
      Except.ok (setInstanceStatus s id ProcessStatus.ERROR)
    else Except.error EngineError.invalidStateTransition

/-- The commit part of `create_instance`: append the RUNNING instance row
with `start_time = now`, write the initial variables with version 1 and empty
scope, and ask the executor for the initial token at the selected start
event. -/
def createCommit (now : Nat) (s : EngineState) (iid did sid freshTok : String)
    (vars : List (String × TypedVar)) : Except EngineError EngineState :=
  match create_initial_token iid sid freshTok s.tokens with
  | Except.error _ => Except.error EngineError.processInstance
  | Except.ok toks =>
    Except.ok { s with
      instances := s.instances ++
        [{ id := iid, definition_id := did, status := ProcessStatus.RUNNING,
           start_time := now, end_time := none }],
      varRows := s.varRows ++ vars.map (fun p =>
        { instance_id := iid, name := p.1, scope_id := none, version := 1,
          value_type := p.2.type, value := p.2.value }),
      tokens := toks }

/-- Modelled from the spec: `ProcessInstanceManager.create_instance` is not
under src/ (only its tests and callers are).  §4.2: an existing row is never
overwritten (idempotent upsert); otherwise it validates that the definition
exists (`InvalidProcessDefinitionError`), validates every variable's type tag
and value (`InvalidVariableError`), resolves the start event (the explicit
`start_event_id`, else the unique start event, else
`InvalidProcessDefinitionError`), and only then persists the row, the
version-1 variables and the initial token.  `startIds` lists the start events
of the parsed definition. -/
def create_instance (now : Nat) (s : EngineState) (iid did : String)
    (vars : List (String × TypedVar)) (startSel : Option String)
    (startIds : List String) (freshTok : String) :
    Except EngineError EngineState :=
  if s.instances.any (fun r => r.id == iid) then Except.ok s
  else if !(s.definitions.contains did) then
    Except.error EngineError.invalidProcessDefinition
  else if vars.any (fun p => !(validVar p.2)) then
    Except.error EngineError.invalidVariable
  else
    match startSel with
    | some sid => createCommit now s iid did sid freshTok vars
    | none =>
      match startIds with
      | [sid] => createCommit now s iid did sid freshTok vars
      | _ => Except.error EngineError.invalidProcessDefinition

/-- Run `create_instance` the way a caller sees the store afterwards: a
raised validation error aborts the session, so the state is the old one. -/
def runCreate (now : Nat) (s : EngineState) (iid did : String)
    (vars : List (String × TypedVar)) (startSel : Option String)
    (startIds : List String) (freshTok : String) : EngineState :=
  match create_instance now s iid did vars startSel startIds freshTok with
  | Except.ok s' => s'
  | Except.error _ => s

/-- Overwrite-or-append on an association list, used to model "latest version
wins" reads over the append-only variable rows. -/
def assocSet (m : List (String × RawValue)) (n : String) (v : RawValue) :
    List (String × RawValue) :=
  if m.any (fun p => p.1 == n) then
    m.map (fun p => if p.1 == n then (n, v) else p)
  else m ++ [(n, v)]

/-- Modelled from the spec: `ProcessInstanceManager.get_instance_variables`
is not under src/.  §4.2: returns the latest version per name (process scope)
as native values.  Versions are assigned increasingly along the append-only
row list, so folding left and letting later writes win per name returns the
latest version of each name, in first-write order. -/
def get_instance_variables (s : EngineState) (iid : String) :
    List (String × RawValue) :=
  (s.varRows.filter (fun v => v.instance_id == iid && v.scope_id == none)).foldl
    (fun m v => assocSet m v.name v.value) []

/-- A lifecycle operation on a fixed instance id, spec §8 invariant 1:
create / suspend / resume / terminate / set_error. -/
inductive Op
  | create (definition_id : String)
  | suspend
  | resume
  | terminate
  | setError
deriving DecidableEq, Repr

/-- The status an operation drives the instance towards (the target column of
the §4.2 matrix). -/
def opTarget : Op → ProcessStatus
  | Op.create _ => ProcessStatus.RUNNING
  | Op.suspend => ProcessStatus.SUSPENDED
  | Op.resume => ProcessStatus.RUNNING
  | Op.terminate => ProcessStatus.COMPLETED
  | Op.setError => ProcessStatus.ERROR

/-- The start event id of the single-start test definition (`Start_1` in
`test_instance.py`). -/
def startOne : String := "Start_1"

/-- Suffix used to derive a fresh token id from an instance id. -/
def tokSuffix : String := ":token"

/-- Dispatch one lifecycle operation on instance `id`; `create` is run with no
variables and a single-start definition, which is all the walk claim needs. -/
def runOp (now : Nat) (id : String) : Op → EngineState →
    Except EngineError EngineState
  | Op.create did, s =>
    create_instance now s id did [] none [startOne] (id ++ tokSuffix)
  | Op.suspend, s => suspend_instance s id
  | Op.resume, s => resume_instance s id
  | Op.terminate, s => terminate_instance now s id
  | Op.setError, s => set_error_state s id

/-- The sequence of statuses the instance takes while running the operation
list: a failed operation raises and leaves the state (hence the status)
unchanged. -/
def runTrace (now : Nat) (id : String) :
    List Op → EngineState → List (Option ProcessStatus)
  | [], s => [statusOf s id]
  | op :: rest, s =>
    match runOp now id op s with
    | Except.ok s' => statusOf s id :: runTrace now id rest s'
    | Except.error _ => statusOf s id :: runTrace now id rest s

/-- The transition matrix of spec §4.2, written from the spec's words:
CREATED → RUNNING (a not-yet-existing row is the CREATED state),
RUNNING ↔ SUSPENDED, RUNNING → ERROR, ERROR → RUNNING, RUNNING → COMPLETED,
ERROR → COMPLETED.  This definition follows the spec text and is compared
with the modelled operations. -/
def specTransitionMatrix : Option ProcessStatus → Option ProcessStatus → Bool
  | none, some ProcessStatus.RUNNING => true
  | some ProcessStatus.RUNNING, some ProcessStatus.SUSPENDED => true
  | some ProcessStatus.SUSPENDED, some ProcessStatus.RUNNING => true
  | some ProcessStatus.RUNNING, some ProcessStatus.ERROR => true
  | some ProcessStatus.ERROR, some ProcessStatus.RUNNING => true
  | some ProcessStatus.RUNNING, some ProcessStatus.COMPLETED => true
  | some ProcessStatus.ERROR, some ProcessStatus.COMPLETED => true
  | _, _ => false

/-- Sample instance id used by the concrete witnesses. -/
def iid1 : String := "i1"

/-- Sample definition id used by the concrete witnesses. -/
def did1 : String := "d1"

/-- Sample pre-existing token id. -/
def tok1 : String := "t1"

/-- Sample fresh token id handed to the executor. -/
def tokFresh : String := "t9"

/-- A token sitting at the start event of the sample instance. -/
def sampleToken : Token :=
  { id := tok1, instance_id := iid1, node_id := startOne }

/-- A RUNNING instance row for the sample instance. -/
def runningRow : InstanceRow :=
  { id := iid1, definition_id := did1, status := ProcessStatus.RUNNING,
    start_time := 0, end_time := none }

/-- An engine state holding one definition and nothing else. -/
def sampleState : EngineState :=
  { definitions := [did1], instances := [], varRows := [], tokens := [] }

/-- An engine state holding one RUNNING instance with one token at the start
event, as after `create_instance` in the tests. -/
def runningState : EngineState :=
  { definitions := [did1], instances := [runningRow], varRows := [],
    tokens := [sampleToken] }

/-- An engine state whose sample instance is COMPLETED (terminal). -/
def completedState : EngineState :=
  { definitions := [did1],
    instances := [{ id := iid1, definition_id := did1,
                    status := ProcessStatus.COMPLETED, start_time := 0,
                    end_time := some 1 }],
    varRows := [], tokens := [] }

/-- A timer world with no instance rows and healthy services. -/
def timerWorld0 : TimerWorld :=
  { instances := [], published := [], busConnectFails := false,
    dbConnectFails := false, publishFails := false }

/-- A timer world whose instance row already exists (e.g. the same timer
event was already handled once) and healthy services. -/
def timerWorld7 : TimerWorld :=
  { instances := [runningRow], published := [], busConnectFails := false,
    dbConnectFails := false, publishFails := false }

/-- The event payload `{instance_id, definition_id}` of the sample timer
event. -/
def evData1 : EventData :=
  { instance_id := some iid1, definition_id := some did1 }

/-- The variable map of spec §8 scenario 2: amount integer 1000, approved
boolean false, notes string "Test notes". -/
def sampleVars : List (String × TypedVar) :=
  [(("amount"), { type := ("integer"), value := RawValue.rint 1000 }),
   (("approved"), { type := ("boolean"), value := RawValue.rbool false }),
   (("notes"), { type := ("string"), value := RawValue.rstr ("Test notes") })]

/-- The invalid variable map of spec §8 scenario 4: an unknown type tag. -/
def invalidVars : List (String × TypedVar) :=
  [(("x"), { type := ("invalid_type"), value := RawValue.rstr ("t") })]

/-- A row lookup on a table none of whose rows matches returns nothing. -/
theorem findRow_eq_none (l : List InstanceRow) (id : String)
    (h : l.any (fun r => r.id == id) = false) : findRow l id = none := by
  induction l with
  | nil => rfl
  | cons a l ih =>
    rw [List.any_cons] at h
    cases ha : (a.id == id) with
    | true => rw [ha] at h; simp at h
    | false =>
      rw [ha] at h
      simp only [Bool.false_or] at h
      simp [findRow, ha, ih h]

/-- Looking a key up in a concatenated table falls through to the second part
when the first has no matching row. -/
theorem findRow_append_left_none (l₁ l₂ : List InstanceRow) (id : String)
    (h : findRow l₁ id = none) : findRow (l₁ ++ l₂) id = findRow l₂ id := by
  induction l₁ with
  | nil => rfl
  | cons a l ih =>
    cases ha : (a.id == id) with
    | true => simp [findRow, ha] at h
    | false =>
      rw [findRow, ha] at h
      simp only [Bool.false_eq_true, if_false] at h
      simp [findRow, ha, ih h]

/-- Row lookup commutes with a row transformation that keeps primary keys. -/
theorem findRow_map_keep_id (l : List InstanceRow) (id : String)
    (f : InstanceRow → InstanceRow) (hf : ∀ r, (f r).id = r.id) :
    findRow (l.map f) id = (findRow l id).map f := by
  induction l with
  | nil => rfl
  | cons a l ih =>
    cases ha : (a.id == id) with
    | true => simp [findRow, hf a, ha]
    | false => simp [findRow, hf a, ha, ih]

/-- A found row matches the key it was looked up by. -/
theorem findRow_some_beq (l : List InstanceRow) (id : String) (r : InstanceRow)
    (h : findRow l id = some r) : (r.id == id) = true := by
  induction l with
  | nil => cases h
  | cons a l ih =>
    cases ha : (a.id == id) with
    | true =>
      rw [findRow, ha] at h
      simp at h
      rw [← h]; exact ha
    | false =>
      rw [findRow, ha] at h
      simp only [Bool.false_eq_true, if_false] at h
      exact ih h

/-- A found row is a member of the table. -/
theorem findRow_some_mem (l : List InstanceRow) (id : String) (r : InstanceRow)
    (h : findRow l id = some r) : r ∈ l := by
  induction l with
  | nil => cases h
  | cons a l ih =>
    cases ha : (a.id == id) with
    | true =>
      rw [findRow, ha] at h
      simp at h
      simp [h]
    | false =>
      rw [findRow, ha] at h
      simp only [Bool.false_eq_true, if_false] at h
      simp [ih h]

/-- Filtering for an instance after its tokens were all removed is empty. -/
theorem filter_keep_none (l : List Token) (id : String) :
    (l.filter (fun t => !(t.instance_id == id))).filter
      (fun t => t.instance_id == id) = [] := by
  induction l with
  | nil => rfl
  | cons a l ih =>
    cases ha : (a.instance_id == id) with
    | true => simp [List.filter_cons, ha, ih]
    | false => simp [List.filter_cons, ha, ih]

/-- Filtering keeps nothing when the predicate is false everywhere. -/
theorem filter_none_of_all_false {α : Type} (p : α → Bool) (l : List α)
    (h : ∀ a ∈ l, p a = false) : l.filter p = [] := by
  induction l with
  | nil => rfl
  | cons a l ih =>
    simp [List.filter_cons, h a (by simp),
      ih (fun b hb => h b (by simp [hb]))]

/-- Filtering keeps everything when the predicate is true everywhere. -/
theorem filter_all_of_all_true {α : Type} (p : α → Bool) (l : List α)
    (h : ∀ a ∈ l, p a = true) : l.filter p = l := by
  induction l with
  | nil => rfl
  | cons a l ih =>
    simp [List.filter_cons, h a (by simp),
      ih (fun b hb => h b (by simp [hb]))]

/-- Folding fresh, pairwise-distinct names into an association map with
`assocSet` appends them in order. -/
theorem foldl_assocSet_fresh (rows : List VarRow)
    (acc : List (String × RawValue))
    (hfresh : ∀ v ∈ rows, ∀ p ∈ acc, (p.1 == v.name) = false)
    (hnd : (rows.map (fun v => v.name)).Nodup) :
    rows.foldl (fun m v => assocSet m v.name v.value) acc
      = acc ++ rows.map (fun v => (v.name, v.value)) := by
  induction rows generalizing acc with
  | nil => simp
  | cons a rows ih =>
    have hany : (acc.any (fun p => p.1 == a.name)) = false := by
      rw [List.any_eq_false]
      intro p hp
      simp [hfresh a (by simp) p hp]
    have hset : assocSet acc a.name a.value = acc ++ [(a.name, a.value)] := by
      simp [assocSet, hany]
    rw [List.foldl_cons, hset,
      ih (acc ++ [(a.name, a.value)]) ?_ ?_]
    · simp
    · intro v hv p hp
      rcases List.mem_append.mp hp with h1 | h2
      · exact hfresh v (List.mem_cons_of_mem _ hv) p h1
      · have hpa : p = (a.name, a.value) := by simpa using h2
        subst hpa
        have hne : a.name ≠ v.name := by
          rw [List.map_cons, List.nodup_cons] at hnd
          intro hEq
          exact hnd.1 (hEq ▸ List.mem_map_of_mem (fun v => v.name) hv)
        simpa using hne
    · rw [List.map_cons, List.nodup_cons] at hnd
      exact hnd.2

/-- A successful lifecycle operation either leaves the status unchanged (the
create upsert on an existing row) or takes one edge of the §4.2 matrix. -/
theorem runOp_ok_step (now : Nat) (id : String) (op : Op) (s s' : EngineState)
    (h : runOp now id op s = Except.ok s') :
    statusOf s id = statusOf s' id
      ∨ specTransitionMatrix (statusOf s id) (statusOf s' id) = true := by
  have hkeep : ∀ (st : ProcessStatus) (r : InstanceRow),
      ((if r.id == id then { r with status := st } else r) : InstanceRow).id
        = r.id := by
    intro st r
    by_cases hr : (r.id == id) = true <;> simp [hr]
  cases op with
  | suspend =>
    cases hf : findRow s.instances id with
    | none =>
      have hbadrun : runOp now id Op.suspend s
          = Except.error EngineError.processInstance := by
        simp [runOp, suspend_instance, hf]
      rw [hbadrun] at h
      exact Except.noConfusion h
    | some row =>
      cases hstat : row.status with
      | RUNNING =>
        have hok : runOp now id Op.suspend s
            = Except.ok (setInstanceStatus s id ProcessStatus.SUSPENDED) := by
          simp [runOp, suspend_instance, hf, hstat]
        rw [hok] at h
        rw [← Except.ok.inj h]
        right
        simp only [statusOf, setInstanceStatus]
        rw [findRow_map_keep_id _ _ _ (hkeep ProcessStatus.SUSPENDED), hf]
        have hid : row.id = id := by simpa using findRow_some_beq _ _ _ hf
        simp [hid, hstat, specTransitionMatrix]
      | COMPLETED =>
        have hbadrun : runOp now id Op.suspend s
            = Except.error EngineError.invalidStateTransition := by
          simp [runOp, suspend_instance, hf, hstat]
        rw [hbadrun] at h
        exact Except.noConfusion h
      | SUSPENDED =>
        have hbadrun : runOp now id Op.suspend s
            = Except.error EngineError.invalidStateTransition := by
          simp [runOp, suspend_instance, hf, hstat]
        rw [hbadrun] at h
        exact Except.noConfusion h
      | ERROR =>
        have hbadrun : runOp now id Op.suspend s
            = Except.error EngineError.invalidStateTransition := by
          simp [runOp, suspend_instance, hf, hstat]
        rw [hbadrun] at h
        exact Except.noConfusion h
  | resume =>
    cases hf : findRow s.instances id with
    | none =>
      have hbadrun : runOp now id Op.resume s
          = Except.error EngineError.processInstance := by
        simp [runOp, resume_instance, hf]
      rw [hbadrun] at h
      exact Except.noConfusion h
    | some row =>
      cases hstat : row.status with
      | SUSPENDED =>
        have hok : runOp now id Op.resume s
            = Except.ok (setInstanceStatus s id ProcessStatus.RUNNING) := by
          simp [runOp, resume_instance, hf, hstat]
        rw [hok] at h
        rw [← Except.ok.inj h]
        right
        simp only [statusOf, setInstanceStatus]
        rw [findRow_map_keep_id _ _ _ (hkeep ProcessStatus.RUNNING), hf]
        have hid : row.id = id := by simpa using findRow_some_beq _ _ _ hf
        simp [hid, hstat, specTransitionMatrix]
      | ERROR =>
        have hok : runOp now id Op.resume s
            = Except.ok (setInstanceStatus s id ProcessStatus.RUNNING) := by
          simp [runOp, resume_instance, hf, hstat]
        rw [hok] at h
        rw [← Except.ok.inj h]
        right
        simp only [statusOf, setInstanceStatus]
        rw [findRow_map_keep_id _ _ _ (hkeep ProcessStatus.RUNNING), hf]
        have hid : row.id = id := by simpa using findRow_some_beq _ _ _ hf
        simp [hid, hstat, specTransitionMatrix]
      | RUNNING =>
        have hbadrun : runOp now id Op.resume s
            = Except.error EngineError.invalidStateTransition := by
          simp [runOp, resume_instance, hf, hstat]
        rw [hbadrun] at h
        exact Except.noConfusion h
      | COMPLETED =>
        have hbadrun : runOp now id Op.resume s
            = Except.error EngineError.invalidStateTransition := by
          simp [runOp, resume_instance, hf, hstat]
        rw [hbadrun] at h
        exact Except.noConfusion h
  | terminate =>
    have hk : ∀ r : InstanceRow,
        ((if r.id == id then
          { r with status := ProcessStatus.COMPLETED, end_time := some now }
        else r) : InstanceRow).id = r.id := by
      intro r
      by_cases hx : (r.id == id) = true <;> simp [hx]
    cases hf : findRow s.instances id with
    | none =>
      have hbadrun : runOp now id Op.terminate s
          = Except.error EngineError.processInstance := by
        simp [runOp, terminate_instance, hf]
      rw [hbadrun] at h
      exact Except.noConfusion h
    | some row =>
      cases hstat : row.status with
      | RUNNING =>
        have hok : runOp now id Op.terminate s = Except.ok { s with
            instances := s.instances.map (fun r =>
              if r.id == id then
                { r with status := ProcessStatus.COMPLETED, end_time := some now }
              else r),
            tokens := s.tokens.filter (fun t => !(t.instance_id == id)) } := by
          simp [runOp, terminate_instance, hf, hstat]
        rw [hok] at h
        rw [← Except.ok.inj h]
        right
        simp only [statusOf]
        rw [findRow_map_keep_id _ _ _ hk, hf]
        have hid : row.id = id := by simpa using findRow_some_beq _ _ _ hf
        simp [hid, hstat, specTransitionMatrix]
      | ERROR =>
        have hok : runOp now id Op.terminate s = Except.ok { s with
            instances := s.instances.map (fun r =>
              if r.id == id then
                { r with status := ProcessStatus.COMPLETED, end_time := some now }
              else r),
            tokens := s.tokens.filter (fun t => !(t.instance_id == id)) } := by
          simp [runOp, terminate_instance, hf, hstat]
        rw [hok] at h
        rw [← Except.ok.inj h]
        right
        simp only [statusOf]
        rw [findRow_map_keep_id _ _ _ hk, hf]
        have hid : row.id = id := by simpa using findRow_some_beq _ _ _ hf
        simp [hid, hstat, specTransitionMatrix]
      | SUSPENDED =>
        have hbadrun : runOp now id Op.terminate s
            = Except.error EngineError.invalidStateTransition := by
          simp [runOp, terminate_instance, hf, hstat]
        rw [hbadrun] at h
        exact Except.noConfusion h
      | COMPLETED =>
        have hbadrun : runOp now id Op.terminate s
            = Except.error EngineError.invalidStateTransition := by
          simp [runOp, terminate_instance, hf, hstat]
        rw [hbadrun] at h
        exact Except.noConfusion h
  | setError =>
    cases hf : findRow s.instances id with
    | none =>
      have hbadrun : runOp now id Op.setError s
          = Except.error EngineError.processInstance := by
        simp [runOp, set_error_state, hf]
      rw [hbadrun] at h
      exact Except.noConfusion h
    | some row =>
      cases hstat : row.status with
      | RUNNING =>
        have hok : runOp now id Op.setError s
            = Except.ok (setInstanceStatus s id ProcessStatus.ERROR) := by
          simp [runOp, set_error_state, hf, hstat]
        rw [hok] at h
        rw [← Except.ok.inj h]
        right
        simp only [statusOf, setInstanceStatus]
        rw [findRow_map_keep_id _ _ _ (hkeep ProcessStatus.ERROR), hf]
        have hid : row.id = id := by simpa using findRow_some_beq _ _ _ hf
        simp [hid, hstat, specTransitionMatrix]
      | COMPLETED =>
        have hbadrun : runOp now id Op.setError s
            = Except.error EngineError.invalidStateTransition := by
          simp [runOp, set_error_state, hf, hstat]
        rw [hbadrun] at h
        exact Except.noConfusion h
      | SUSPENDED =>
        have hbadrun : runOp now id Op.setError s
            = Except.error EngineError.invalidStateTransition := by
          simp [runOp, set_error_state, hf, hstat]
        rw [hbadrun] at h
        exact Except.noConfusion h
      | ERROR =>
        have hbadrun : runOp now id Op.setError s
            = Except.error EngineError.invalidStateTransition := by
          simp [runOp, set_error_state, hf, hstat]
        rw [hbadrun] at h
        exact Except.noConfusion h
  | create did =>
    by_cases hex : (s.instances.any fun r => r.id == id) = true
    · have hup : runOp now id (Op.create did) s = Except.ok s := by
        simp [runOp, create_instance, hex]
      rw [hup] at h
      left
      rw [Except.ok.inj h]
    · have hexf : (s.instances.any fun r => r.id == id) = false := by
        cases hx : s.instances.any fun r => r.id == id
        · rfl
        · exact absurd hx hex
      have hnone : findRow s.instances id = none := findRow_eq_none _ _ hexf
      by_cases hdef : (s.definitions.contains did) = true
      · have hdefm : did ∈ s.definitions := by simpa using hdef
        cases htok : create_initial_token id startOne (id ++ tokSuffix) s.tokens with
        | error e =>
          have hbadrun : runOp now id (Op.create did) s
              = Except.error EngineError.processInstance := by
            simp [runOp, create_instance, hexf, hdefm, createCommit, htok]
          rw [hbadrun] at h
          exact Except.noConfusion h
        | ok toks =>
          have hok : runOp now id (Op.create did) s = Except.ok
              { definitions := s.definitions,
                instances := s.instances ++
                  [{ id := id, definition_id := did,
                     status := ProcessStatus.RUNNING, start_time := now,
                     end_time := none }],
                varRows := s.varRows,
                tokens := toks } := by
            simp [runOp, create_instance, hexf, hdefm, createCommit, htok]
          rw [hok] at h
          rw [← Except.ok.inj h]
          right
          simp only [statusOf]
          rw [hnone, findRow_append_left_none _ _ _ hnone]
          simp [findRow, specTransitionMatrix]
      · have hdeff : (s.definitions.contains did) = false := by
          cases hx : s.definitions.contains did
          · rfl
          · exact absurd hx hdef
        have hdeffm : did ∉ s.definitions := by simpa using hdeff
        have hbadrun : runOp now id (Op.create did) s
            = Except.error EngineError.invalidProcessDefinition := by
          simp [runOp, create_instance, hexf, hdeffm]
        rw [hbadrun] at h
        exact Except.noConfusion h

/-- The head of a run trace is the status before the first operation. -/
theorem runTrace_head (now : Nat) (id : String) (ops : List Op)
    (s : EngineState) :
    (runTrace now id ops s).head? = some (statusOf s id) := by
  cases ops with
  | nil => rfl
  | cons op rest =>
    cases h : runOp now id op s with
    | ok s' => simp [runTrace, h]
    | error e => simp [runTrace, h]

/-- Every run trace is a valid walk: consecutive statuses are equal or joined
by an edge of the §4.2 matrix. -/
theorem runTrace_chain (now : Nat) (id : String) (ops : List Op)
    (s : EngineState) :
    List.Chain' (fun a b => a = b ∨ specTransitionMatrix a b = true)
      (runTrace now id ops s) := by
  induction ops generalizing s with
  | nil => simp [runTrace]
  | cons op rest ih =>
    cases h : runOp now id op s with
    | ok s' =>
      rw [runTrace, h]
      refine List.chain'_cons'.mpr ⟨?_, ih s'⟩
      intro y hy
      rw [runTrace_head] at hy
      simp only [Option.mem_def, Option.some.injEq] at hy
      subst hy
      exact runOp_ok_step now id op s s' h
    | error e =>
      rw [runTrace, h]
      refine List.chain'_cons'.mpr ⟨?_, ih s⟩
      intro y hy
      rw [runTrace_head] at hy
      simp only [Option.mem_def, Option.some.injEq] at hy
      subst hy
      exact Or.inl rfl

/-- A non-create operation whose requested transition is outside the §4.2
matrix fails with `InvalidStateTransitionError`. -/
theorem runOp_bad (now : Nat) (id : String) (op : Op) (s : EngineState)
    (x : ProcessStatus) (hop : ∀ d, op ≠ Op.create d)
    (hst : statusOf s id = some x)
    (hbad : specTransitionMatrix (some x) (some (opTarget op)) = false) :
    runOp now id op s = Except.error EngineError.invalidStateTransition := by
  cases hf : findRow s.instances id with
  | none => rw [statusOf, hf] at hst; cases hst
  | some row =>
    rw [statusOf, hf] at hst
    simp only [Option.map_some', Option.some.injEq] at hst
    cases op with
    | create d => exact absurd rfl (hop d)
    | suspend =>
      cases x <;>
        simp_all [runOp, suspend_instance, hf, opTarget, specTransitionMatrix]
    | resume =>
      cases x <;>
        simp_all [runOp, resume_instance, hf, opTarget, specTransitionMatrix]
    | terminate =>
      cases x <;>
        simp_all [runOp, terminate_instance, hf, opTarget, specTransitionMatrix]
    | setError =>
      cases x <;>
        simp_all [runOp, set_error_state, hf, opTarget, specTransitionMatrix]

/-- Claim C9: during shutdown every service (timer scheduler, database,
event bus, state manager) is asked to disconnect even if earlier disconnects
fail; all disconnect errors are collected in code order; after all cleanup
attempts the first collected error, and only that one, is raised; when none
fail nothing is raised (the head of the empty error list is `none`). -/
theorem C9_shutdown_first_error (rTimer rDb rBus rState : Option String) :
    (lifespan_shutdown rTimer rDb rBus rState).attempted
        = [Service.timerScheduler, Service.database, Service.eventBus,
           Service.stateManager]
    ∧ (lifespan_shutdown rTimer rDb rBus rState).collected
        = rTimer.toList ++ rDb.toList ++ rBus.toList ++ rState.toList
    ∧ (lifespan_shutdown rTimer rDb rBus rState).raised
        = (rTimer.toList ++ rDb.toList ++ rBus.toList ++ rState.toList).head? := by
  cases rTimer <;> cases rDb <;> cases rBus <;> cases rState <;>
    simp [lifespan_shutdown, shutdownTry]

/-- Claim C10: `handle_timer_triggered` never propagates an exception to its
caller: for every input dictionary (including ones missing instance_id or
definition_id) and every injected failure of connecting, instance creation or
publishing, the escaping exception is `none`, while the side effects of the
body are kept. -/
theorem C10_handler_never_raises (now : Nat) (data : EventData)
    (w : TimerWorld) :
    (handle_timer_triggered now data w).2 = none
    ∧ (handle_timer_triggered now data w).1
        = (handle_timer_triggered_try now data w).1 := by
  cases h : handle_timer_triggered_try now data w with
  | mk w' exc => cases exc <;> simp [handle_timer_triggered, h]

/-- Claim C1: when the `process.timer_triggered` handler runs and a
`ProcessInstance` row with the given instance id already exists, the table is
left exactly as it was (the duplicate insert fails on the primary key and the
exception is swallowed, so nothing is inserted and the existing row's
start_time and status are untouched); when no such row exists, the handler
inserts exactly that row; and handling the same event twice leaves the same
rows as handling it once. -/
theorem C1_timer_upsert_idempotent (now now' : Nat) (iid did : String)
    (w : TimerWorld) (hb : w.busConnectFails = false)
    (hd : w.dbConnectFails = false) :
    ((w.instances.any (fun r => r.id == iid)) = true →
      (handle_timer_triggered now
        { instance_id := some iid, definition_id := some did } w).1.instances
        = w.instances)
    ∧ ((w.instances.any (fun r => r.id == iid)) = false →
      (handle_timer_triggered now
        { instance_id := some iid, definition_id := some did } w).1.instances
        = w.instances ++
          [{ id := iid, definition_id := did,
             status := ProcessStatus.RUNNING, start_time := now,
             end_time := none }])
    ∧ (handle_timer_triggered now'
        { instance_id := some iid, definition_id := some did }
        (handle_timer_triggered now
          { instance_id := some iid, definition_id := some did } w).1).1.instances
        = (handle_timer_triggered now
            { instance_id := some iid, definition_id := some did } w).1.instances := by
  refine ⟨?_, ?_, ?_⟩
  · intro hex
    simp [handle_timer_triggered, handle_timer_triggered_try, insertInstanceRow,
      hb, hd, hex]
  · intro hex
    cases hp : w.publishFails <;>
      simp [handle_timer_triggered, handle_timer_triggered_try, insertInstanceRow,
        hb, hd, hex, hp]
  · by_cases hex : (w.instances.any (fun r => r.id == iid)) = true
    · simp [handle_timer_triggered, handle_timer_triggered_try, insertInstanceRow,
        hb, hd, hex]
    · have hexf : (w.instances.any (fun r => r.id == iid)) = false := by
        cases hx : w.instances.any (fun r => r.id == iid)
        · rfl
        · exact absurd hx hex
      cases hp : w.publishFails <;>
        simp [handle_timer_triggered, handle_timer_triggered_try, insertInstanceRow,
          hb, hd, hexf, hp, List.any_append]

/-- Claim C1 witness: handling the sample timer event on an empty table
inserts exactly the one RUNNING row. -/
theorem C1_timer_upsert_idempotent_witness :
    (handle_timer_triggered 3 evData1 timerWorld0).1.instances
      = [{ id := iid1, definition_id := did1,
           status := ProcessStatus.RUNNING, start_time := 3,
           end_time := none }] :=
  (C1_timer_upsert_idempotent 3 4 iid1 did1 timerWorld0 rfl rfl).2.1 rfl

/-- Claim C7 counterexample: handling a `process.timer_triggered` event whose
instance row already exists publishes no `process.started` event at all (the
duplicate insert raises before the publish and the exception is swallowed),
refuting "publishes exactly one process.started event". -/
theorem C7_counterexample :
    timerWorld7.instances.any (fun r => r.id == iid1) = true
    ∧ (handle_timer_triggered 5 evData1 timerWorld7).1.published = [] := by
  constructor <;> rfl

/-- Claim C7 (amended): when no row exists for the instance id, the handler
inserts it and publishes exactly one `process.started` event carrying the
timer event's instance_id and definition_id, an empty variables object, the
source "timer_event" and a timestamp; when a row already exists, the insert
fails and the handler publishes nothing. -/
theorem C7_publish_once_on_fresh (now : Nat) (iid did : String)
    (w : TimerWorld) (hb : w.busConnectFails = false)
    (hd : w.dbConnectFails = false) (hp : w.publishFails = false) :
    ((w.instances.any (fun r => r.id == iid)) = false →
      (handle_timer_triggered now
        { instance_id := some iid, definition_id := some did } w).1.published
        = w.published ++
          [{ instance_id := iid, definition_id := did, vars := [],
             source := some srcTimer, timestamp := now }])
    ∧ ((w.instances.any (fun r => r.id == iid)) = true →
      (handle_timer_triggered now
        { instance_id := some iid, definition_id := some did } w).1.published
        = w.published) := by
  constructor <;> intro hex <;>
    simp [handle_timer_triggered, handle_timer_triggered_try, insertInstanceRow,
      hb, hd, hp, hex]

/-- Claim C7 witness: handling the sample timer event on an empty table
publishes exactly the upgraded `process.started` event. -/
theorem C7_publish_once_on_fresh_witness :
    (handle_timer_triggered 3 evData1 timerWorld0).1.published
      = [{ instance_id := iid1, definition_id := did1, vars := [],
           source := some srcTimer, timestamp := 3 }] :=
  (C7_publish_once_on_fresh 3 iid1 did1 timerWorld0 rfl rfl rfl).1 rfl

/-- Claim C5: the token-creation step of `handle_process_started` creates no
new initial token when the state store already records at least one token for
the instance (the pre-existing tokens are used unchanged), and creates
exactly one initial token at the start event when the store has none. -/
theorem C5_initial_token_once (iid sid fid : String) :
    (∀ ts : List Token, ts ≠ [] →
      handle_process_started_token_step iid sid fid (some ts) = Except.ok ts)
    ∧ handle_process_started_token_step iid sid fid (some [])
        = Except.ok [{ id := fid, instance_id := iid, node_id := sid }]
    ∧ handle_process_started_token_step iid sid fid none
        = Except.ok [{ id := fid, instance_id := iid, node_id := sid }] := by
  refine ⟨?_, ?_, ?_⟩
  · intro ts hts
    cases ts with
    | nil => exact absurd rfl hts
    | cons a l => simp [handle_process_started_token_step]
  · simp [handle_process_started_token_step, create_initial_token]
  · simp [handle_process_started_token_step, create_initial_token]

/-- Claim C5 witness: with one token already at the start event, the step
returns it unchanged and creates nothing. -/
theorem C5_initial_token_once_witness :
    handle_process_started_token_step iid1 startOne tokFresh
      (some [sampleToken]) = Except.ok [sampleToken] :=
  (C5_initial_token_once iid1 startOne tokFresh).1 [sampleToken] (by simp)

/-- Claim C2: for any sequence of create/suspend/resume/terminate/set_error
operations on an instance, the sequence of statuses taken is a valid walk of
the §4.2 matrix (CREATED → RUNNING, RUNNING ↔ SUSPENDED, RUNNING → ERROR,
ERROR → RUNNING, RUNNING → COMPLETED, ERROR → COMPLETED), and any non-create
operation requesting a transition outside the matrix fails with
`InvalidStateTransitionError`; a failed operation commits nothing, so the
status is unchanged (the trace repeats it). -/
theorem C2_status_walk (now : Nat) (id : String) :
    (∀ (ops : List Op) (s : EngineState),
      List.Chain' (fun a b => a = b ∨ specTransitionMatrix a b = true)
        (runTrace now id ops s))
    ∧ (∀ (op : Op) (s : EngineState) (x : ProcessStatus),
      (∀ d, op ≠ Op.create d) → statusOf s id = some x →
      specTransitionMatrix (some x) (some (opTarget op)) = false →
      runOp now id op s = Except.error EngineError.invalidStateTransition) :=
  ⟨fun ops s => runTrace_chain now id ops s,
   fun op s x hop hst hbad => runOp_bad now id op s x hop hst hbad⟩

/-- Claim C2 witness: a concrete create–suspend–resume trace is a valid walk,
and suspending a COMPLETED instance fails with
`InvalidStateTransitionError`. -/
theorem C2_status_walk_witness :
    List.Chain' (fun a b => a = b ∨ specTransitionMatrix a b = true)
      (runTrace 0 iid1 [Op.create did1, Op.suspend, Op.resume] sampleState)
    ∧ runOp 0 iid1 Op.suspend completedState
        = Except.error EngineError.invalidStateTransition :=
  ⟨(C2_status_walk 0 iid1).1 [Op.create did1, Op.suspend, Op.resume] sampleState,
   (C2_status_walk 0 iid1).2 Op.suspend completedState ProcessStatus.COMPLETED
     (fun _ h => Op.noConfusion h) rfl rfl⟩

/-- Claim C3: terminating a RUNNING instance succeeds, sets the status to
COMPLETED, sets end_time to a non-null value, and removes all tokens of the
instance, so a subsequent `get_token_positions` returns the empty list. -/
theorem C3_terminate_removes_tokens (now : Nat) (s : EngineState)
    (id : String) (row : InstanceRow) (hf : findRow s.instances id = some row)
    (hr : row.status = ProcessStatus.RUNNING) :
    ∃ s', terminate_instance now s id = Except.ok s'
      ∧ statusOf s' id = some ProcessStatus.COMPLETED
      ∧ endTimeOf s' id = some (some now)
      ∧ get_token_positions s' id = [] := by
  have hk : ∀ r : InstanceRow,
      ((if r.id == id then
        { r with status := ProcessStatus.COMPLETED, end_time := some now }
      else r) : InstanceRow).id = r.id := by
    intro r
    by_cases hx : (r.id == id) = true <;> simp [hx]
  have hid : row.id = id := by simpa using findRow_some_beq _ _ _ hf
  have hterm : terminate_instance now s id = Except.ok { s with
      instances := s.instances.map (fun r =>
        if r.id == id then
          { r with status := ProcessStatus.COMPLETED, end_time := some now }
        else r),
      tokens := s.tokens.filter (fun t => !(t.instance_id == id)) } := by
    simp [terminate_instance, hf, hr]
  refine ⟨_, hterm, ?_, ?_, ?_⟩
  · simp only [statusOf]
    rw [findRow_map_keep_id _ _ _ hk, hf]
    simp [hid]
  · simp only [endTimeOf]
    rw [findRow_map_keep_id _ _ _ hk, hf]
    simp [hid]
  · simp [get_token_positions, filter_keep_none]

/-- Claim C3 witness: terminating the sample RUNNING instance with one token
completes it, stamps the end time, and empties its token positions. -/
theorem C3_terminate_removes_tokens_witness :
    ∃ s', terminate_instance 7 runningState iid1 = Except.ok s'
      ∧ statusOf s' iid1 = some ProcessStatus.COMPLETED
      ∧ endTimeOf s' iid1 = some (some 7)
      ∧ get_token_positions s' iid1 = [] :=
  C3_terminate_removes_tokens 7 runningState iid1 runningRow rfl rfl

/-- Setting every matching RUNNING row to SUSPENDED and back to RUNNING
restores the table exactly. -/
theorem map_set_set_id (l : List InstanceRow) (id : String)
    (hall : ∀ r ∈ l, (r.id == id) = true →
      r.status = ProcessStatus.RUNNING) :
    ((l.map (fun r => if r.id == id then
        { r with status := ProcessStatus.SUSPENDED } else r)).map
      (fun r => if r.id == id then
        { r with status := ProcessStatus.RUNNING } else r)) = l := by
  induction l with
  | nil => rfl
  | cons a l ih =>
    simp only [List.map_cons]
    congr 1
    · by_cases ha : (a.id == id) = true
      · have hst := hall a (by simp) ha
        cases a
        simp_all
      · simp [ha]
    · exact ih (fun r hr hx => hall r (by simp [hr]) hx)

/-- Claim C8: for a RUNNING instance, suspend followed by resume succeeds and
is a frame: the multiset of the instance's tokens (their node positions and
contents) and the variables are exactly as before the suspend, and the whole
state returns to its original value — only the status changed during the
round trip. -/
theorem C8_suspend_resume_frame (s : EngineState) (id : String)
    (row : InstanceRow) (hf : findRow s.instances id = some row)
    (hall : ∀ r ∈ s.instances, (r.id == id) = true →
      r.status = ProcessStatus.RUNNING) :
    ∃ s1 s2, suspend_instance s id = Except.ok s1
      ∧ resume_instance s1 id = Except.ok s2
      ∧ s1.tokens = s.tokens ∧ s1.varRows = s.varRows
      ∧ (s2.tokens : Multiset Token) = (s.tokens : Multiset Token)
      ∧ s2 = s := by
  have hid : (row.id == id) = true := findRow_some_beq _ _ _ hf
  have hr : row.status = ProcessStatus.RUNNING :=
    hall row (findRow_some_mem _ _ _ hf) hid
  have hkeep : ∀ r : InstanceRow,
      ((if r.id == id then
        { r with status := ProcessStatus.SUSPENDED } else r) : InstanceRow).id
        = r.id := by
    intro r
    by_cases hx : (r.id == id) = true <;> simp [hx]
  have hsusp : suspend_instance s id
      = Except.ok (setInstanceStatus s id ProcessStatus.SUSPENDED) := by
    simp [suspend_instance, hf, hr]
  have hid' : row.id = id := by simpa using hid
  have hf1 : findRow (setInstanceStatus s id ProcessStatus.SUSPENDED).instances
      id = some { row with status := ProcessStatus.SUSPENDED } := by
    simp only [setInstanceStatus]
    rw [findRow_map_keep_id _ _ _ hkeep, hf]
    simp [hid']
  have hres : resume_instance (setInstanceStatus s id ProcessStatus.SUSPENDED)
      id = Except.ok (setInstanceStatus
        (setInstanceStatus s id ProcessStatus.SUSPENDED) id
        ProcessStatus.RUNNING) := by
    simp [resume_instance, hf1]
  have hback : setInstanceStatus
      (setInstanceStatus s id ProcessStatus.SUSPENDED) id ProcessStatus.RUNNING
      = s := by
    simp only [setInstanceStatus]
    rw [map_set_set_id s.instances id hall]
  refine ⟨_, _, hsusp, hres, rfl, rfl, ?_, hback⟩
  rw [hback]

/-- Claim C8 witness: suspending and resuming the sample RUNNING instance
restores the state, tokens included, exactly. -/
theorem C8_suspend_resume_frame_witness :
    ∃ s1 s2, suspend_instance runningState iid1 = Except.ok s1
      ∧ resume_instance s1 iid1 = Except.ok s2
      ∧ s1.tokens = runningState.tokens ∧ s1.varRows = runningState.varRows
      ∧ (s2.tokens : Multiset Token) = (runningState.tokens : Multiset Token)
      ∧ s2 = runningState :=
  C8_suspend_resume_frame runningState iid1 runningRow rfl (by decide)

/-- Claim C4: creating an instance whose variable map uses only allowed type
tags succeeds, and `get_instance_variables` then returns exactly the same
names mapped to the same native values, in order. -/
theorem C4_variable_roundtrip (now : Nat) (s : EngineState)
    (iid did sid ftok : String) (vars : List (String × TypedVar))
    (hfresh : (s.instances.any (fun r => r.id == iid)) = false)
    (hvars0 : ∀ v ∈ s.varRows, (v.instance_id == iid) = false)
    (htoks : ∀ t ∈ s.tokens, (t.instance_id == iid) = false)
    (hdef : did ∈ s.definitions)
    (hnd : (vars.map (fun p => p.1)).Nodup)
    (hvalid : ∀ p ∈ vars, validVar p.2 = true) :
    ∃ s', create_instance now s iid did vars (some sid) [startOne] ftok
        = Except.ok s'
      ∧ get_instance_variables s' iid
        = vars.map (fun p => (p.1, p.2.value)) := by
  have hanyv : (vars.any (fun p => !(validVar p.2))) = false := by
    rw [List.any_eq_false]
    intro p hp
    simp [hvalid p hp]
  have htokany : (s.tokens.any (fun t =>
      t.instance_id == iid && t.node_id == sid)) = false := by
    rw [List.any_eq_false]
    intro t ht
    simp [htoks t ht]
  have hok : create_instance now s iid did vars (some sid) [startOne] ftok
      = Except.ok { s with
          instances := s.instances ++
            [{ id := iid, definition_id := did,
               status := ProcessStatus.RUNNING, start_time := now,
               end_time := none }],
          varRows := s.varRows ++ vars.map (fun p =>
            { instance_id := iid, name := p.1, scope_id := none, version := 1,
              value_type := p.2.type, value := p.2.value }),
          tokens := s.tokens ++
            [{ id := ftok, instance_id := iid, node_id := sid }] } := by
    simp [create_instance, hfresh, hdef, hanyv, createCommit,
      create_initial_token, htokany]
  refine ⟨_, hok, ?_⟩
  simp only [get_instance_variables]
  rw [List.filter_append,
    filter_none_of_all_false _ s.varRows (fun v hv => by simp [hvars0 v hv]),
    filter_all_of_all_true _ _ (fun v hv => by
      rcases List.mem_map.mp hv with ⟨p, hp, hpv⟩
      subst hpv
      simp),
    List.nil_append,
    foldl_assocSet_fresh _ [] (fun v hv p hp => absurd hp (List.not_mem_nil p))
      (by rw [List.map_map]; exact hnd),
    List.nil_append, List.map_map]
  rfl

/-- Claim C4 witness: the spec §8 scenario-2 variables (amount integer 1000,
approved boolean false, notes string "Test notes") round-trip exactly. -/
theorem C4_variable_roundtrip_witness :
    ∃ s', create_instance 1 sampleState iid1 did1 sampleVars (some startOne)
        [startOne] tokFresh = Except.ok s'
      ∧ get_instance_variables s' iid1
        = sampleVars.map (fun p => (p.1, p.2.value)) :=
  C4_variable_roundtrip 1 sampleState iid1 did1 startOne tokFresh sampleVars
    rfl (by simp [sampleState]) (by simp [sampleState]) (by simp [sampleState])
    (by decide) (by decide)

/-- Claim C6: create_instance with a variable whose type tag is not in the
allowed set fails with `InvalidVariableError`, and the operation is atomic:
the state a caller observes afterwards is unchanged, so no instance row
exists for the attempted creation. -/
theorem C6_invalid_variable_rejected (now : Nat) (s : EngineState)
    (iid did sid ftok : String) (vars : List (String × TypedVar))
    (hfresh : (s.instances.any (fun r => r.id == iid)) = false)
    (hdef : did ∈ s.definitions)
    (hbad : ∃ p ∈ vars, allowedTags.contains p.2.type = false) :
    create_instance now s iid did vars (some sid) [startOne] ftok
        = Except.error EngineError.invalidVariable
      ∧ runCreate now s iid did vars (some sid) [startOne] ftok = s
      ∧ statusOf (runCreate now s iid did vars (some sid) [startOne] ftok) iid
        = none := by
  have hanyv : (vars.any (fun p => !(validVar p.2))) = true := by
    rcases hbad with ⟨p, hp, hptag⟩
    rw [List.any_eq_true]
    refine ⟨p, hp, by
      simp [validVar]
      exact Or.inl (by simpa using hptag)⟩
  have herr : create_instance now s iid did vars (some sid) [startOne] ftok
      = Except.error EngineError.invalidVariable := by
    simp [create_instance, hfresh, hdef, hanyv]
  refine ⟨herr, ?_, ?_⟩
  · simp [runCreate, herr]
  · simp [runCreate, herr, statusOf, findRow_eq_none _ _ hfresh]

/-- Claim C6 witness: the spec §8 scenario-4 map `{x: invalid_type "t"}` is
rejected with `InvalidVariableError` and leaves no instance row. -/
theorem C6_invalid_variable_rejected_witness :
    create_instance 2 sampleState iid1 did1 invalidVars (some startOne)
        [startOne] tokFresh = Except.error EngineError.invalidVariable
      ∧ runCreate 2 sampleState iid1 did1 invalidVars (some startOne)
          [startOne] tokFresh = sampleState
      ∧ statusOf (runCreate 2 sampleState iid1 did1 invalidVars
          (some startOne) [startOne] tokFresh) iid1 = none :=
  C6_invalid_variable_rejected 2 sampleState iid1 did1 startOne tokFresh
    invalidVars rfl (by simp [sampleState]) (by decide)

end Pythmata
